import Mathlib

/-!
Verification development for the CoincallTrader trade-execution core.

The Python modules `rfq.py`, `trade_lifecycle.py`, `trade_execution.py`,
`multileg_orderbook.py` and `account_manager.py` are shallowly embedded
below: pure computations become Lean functions over `Rat`, effectful calls
(orderbook fetches, order placement, order-status queries, position fetches)
become explicit oracle arguments, and the state machine of a trade is
modelled by the list of state assignments each manager operation performs.
-/

namespace CoincallTrader

/-! ## RFQ module (`rfq.py`) -/

/-- Side of an option leg, as in `OptionLeg.side` ("BUY" / "SELLL" strings in
the source, normalised by `__post_init__`). -/
inductive Side where
  | buy
  | sell
deriving DecidableEq, Repr, Fintype

/-- One leg of an RFQ structure (`OptionLeg` in `rfq.py`): instrument name,
side and positive quantity. -/
structure OptionLeg where
  instrument : String
  side : Side
  qty : Rat
deriving DecidableEq, Repr

/-- A price level of an orderbook (only the price is used by the embedded
code paths). -/
structure Orderbook where
  bids : List Rat
  asks : List Rat
deriving DecidableEq, Repr

/-- Market-data oracle: `get_option_orderbook` returning `none` when the
orderbook is unavailable (request failure or empty response). -/
def Books := String → Option Orderbook

/-- `RFQExecutor.get_orderbook_cost`, per-leg contribution: a BUY leg takes
the best ask as a cost, a SELL leg hits the best bid as a credit; `none`
when the book or the needed side is missing. -/
def legOrderbookCost (books : Books) (leg : OptionLeg) : Option Rat :=
  match books leg.instrument with
  | none => none
  | some ob =>
    match leg.side with
    | Side.buy =>
      match ob.asks with
      | [] => none
      | p :: _ => some (p * leg.qty)
    | Side.sell =>
      match ob.bids with
      | [] => none
      | p :: _ => some (-(p * leg.qty))

/-- The accumulating loop of `get_orderbook_cost`: add each leg's
contribution, returning `none` as soon as one leg has no usable book. -/
def obCostAux (books : Books) (acc : Rat) : List OptionLeg → Option Rat
  | [] => some acc
  | leg :: rest =>
    match legOrderbookCost books leg with
    | none => none
    | some d => obCostAux books (acc + d) rest

/-- `RFQExecutor.get_orderbook_cost` (rfq.py:386-433): sums the per-leg
contributions starting from 0; any unavailable leg book makes the whole
baseline `none`. -/
def get_orderbook_cost (books : Books) (legs : List OptionLeg) : Option Rat :=
  obCostAux books 0 legs

/-- `RFQExecutor.calculate_improvement` (rfq.py:435-464), exactly as the
source branches: zero baseline gives 0; positive baseline uses
`(orderbook - quote) / |orderbook| * 100`; negative baseline uses
`(quote - orderbook) / |orderbook| * 100`. -/
def calculate_improvement (quote_cost orderbook_cost : Rat) : Rat :=
  if orderbook_cost = 0 then 0
  else if 0 < orderbook_cost then
    (orderbook_cost - quote_cost) / |orderbook_cost| * 100
  else
    (quote_cost - orderbook_cost) / |orderbook_cost| * 100

/-- The improvement formula the specification states: one formula
`(baseline - quote) / |baseline| * 100` for both directions. -/
def improvementSpec (quote_cost orderbook_cost : Rat) : Rat :=
  (orderbook_cost - quote_cost) / |orderbook_cost| * 100

/-- A market-maker quote as used by the accept loop: its identifier and
the signed `total_cost` computed in `RFQQuote.from_api_response`. -/
structure RFQQuote where
  quote_id : String
  total_cost : Rat
deriving DecidableEq, Repr

/-- One polling iteration's accept phase (rfq.py:579-618), applied to the
already filtered and cost-sorted `valid_quotes`: when a baseline exists the
improvement gate is checked on the best (first) quote only — if it fails,
nothing is accepted this round; otherwise the quotes are tried in order and
the first one whose acceptance succeeds (per the `acceptOk` oracle) is
returned. -/
def acceptPhase (quotes : List RFQQuote) (baseline : Option Rat)
    (min_improvement_pct : Rat) (acceptOk : String → Bool) : Option RFQQuote :=
  match quotes with
  | [] => none
  | best :: _ =>
    match baseline with
    | some b =>
      if calculate_improvement best.total_cost b < min_improvement_pct then
        none
      else
        quotes.find? (fun q => acceptOk q.quote_id)
    | none =>
      quotes.find? (fun q => acceptOk q.quote_id)

/-- Sortedness of the valid-quote list produced by
`valid_quotes.sort(key=lambda q: q.total_cost)`: costs are nondecreasing. -/
def costSorted : List RFQQuote → Prop :=
  List.Chain' (fun a b => a.total_cost ≤ b.total_cost)

/-- Modelled from the spec: the orderbook baseline as §4.5 step 1 words it —
a leg is *effectively bought* iff `action == buy` XOR `leg.side == sell`;
effectively bought legs add the best ask, the rest subtract the best bid. -/
def legBaselineSpec (books : Books) (action : Side) (leg : OptionLeg) : Option Rat :=
  let effectivelyBuying : Bool := (action = Side.buy) ≠ (leg.side = Side.sell)
  match books leg.instrument with
  | none => none
  | some ob =>
    if effectivelyBuying then
      match ob.asks with
      | [] => none
      | p :: _ => some (p * leg.qty)
    else
      match ob.bids with
      | [] => none
      | p :: _ => some (-(p * leg.qty))

/-- Modelled from the spec: accumulating sum of `legBaselineSpec`. -/
def baselineSpecAux (books : Books) (action : Side) (acc : Rat) :
    List OptionLeg → Option Rat
  | [] => some acc
  | leg :: rest =>
    match legBaselineSpec books action leg with
    | none => none
    | some d => baselineSpecAux books action (acc + d) rest

/-- Modelled from the spec: sum of `legBaselineSpec` across legs, unknown as
soon as one leg's book is unavailable. -/
def baselineSpec (books : Books) (action : Side) (legs : List OptionLeg) : Option Rat :=
  baselineSpecAux books action 0 legs

/-! ## Trade lifecycle (`trade_lifecycle.py`) -/

/-- The seven states of `TradeState` in `trade_lifecycle.py`. -/
inductive TState where
  | pendingOpen
  | opening
  | openSt
  | pendingClose
  | closing
  | closed
  | failed
deriving DecidableEq, Repr, Fintype

/-- The legal transition graph as the specification states it (§3 "Trade
state", §8 invariant 1): the forward chain, any state to FAILED,
CLOSING back to PENDING_CLOSE, and the unwind edge OPENING → PENDING_CLOSE. -/
def legalEdge : TState → TState → Bool
  | TState.pendingOpen, TState.opening => true
  | TState.opening, TState.openSt => true
  | TState.openSt, TState.pendingClose => true
  | TState.pendingClose, TState.closing => true
  | TState.closing, TState.closed => true
  | _, TState.failed => true
  | TState.closing, TState.pendingClose => true
  | TState.opening, TState.pendingClose => true
  | _, _ => false

/-- The legal graph extended with the edges the code actually takes on the
atomic RFQ paths (`_open_rfq` success: PENDING_OPEN → OPEN; `_close_rfq`
success: OPEN → CLOSED and PENDING_CLOSE → CLOSED) and on a direct
`close()` call from OPEN in limit mode (OPEN → CLOSING). -/
def legalEdgeExt (a b : TState) : Bool :=
  legalEdge a b ||
    (a = TState.pendingOpen && b = TState.openSt) ||
    (a = TState.openSt && b = TState.closed) ||
    (a = TState.pendingClose && b = TState.closed) ||
    (a = TState.openSt && b = TState.closing)

/-- A chain of state assignments starting from `pre` respects `edge`,
where staying in the same state is not a change. -/
def chainOk (edge : TState → TState → Bool) : TState → List TState → Bool
  | _, [] => true
  | pre, s :: rest => (pre = s || edge pre s) && chainOk edge s rest

/-- Execution mode of a trade (`execution_mode` strings in the source). -/
inductive ExecMode where
  | limit
  | rfq
  | smart
deriving DecidableEq, Repr, Fintype

/-- State assignments performed by `_open_limit` (trade_lifecycle.py:530-550):
always sets OPENING; if placing any order fails, sets FAILED. -/
def openLimitTrace (placeOk : Bool) : List TState :=
  if placeOk then [TState.opening] else [TState.opening, TState.failed]

/-- State assignments performed by `_open_smart` (trade_lifecycle.py:552-590):
FAILED when no smart config; else OPENING, then OPEN on success or FAILED. -/
def openSmartTrace (hasConfig success : Bool) : List TState :=
  if !hasConfig then [TState.failed]
  else if success then [TState.opening, TState.openSt]
  else [TState.opening, TState.failed]

/-- State assignments performed by `_open_rfq` (trade_lifecycle.py:468-528):
OPEN directly on RFQ success; on failure, the configured fallback's trace,
or FAILED without one. -/
def openRfqTrace (rfqOk : Bool) (fallback : Option ExecMode)
    (hasConfig smartOk placeOk : Bool) : List TState :=
  if rfqOk then [TState.openSt]
  else
    match fallback with
    | some ExecMode.smart => openSmartTrace hasConfig smartOk
    | some _ => openLimitTrace placeOk
    | none => [TState.failed]

/-- `LifecycleManager.open` (trade_lifecycle.py:430-466): no state change
unless the trade is in PENDING_OPEN; then the mode-specific trace. -/
def openTrace (pre : TState) (mode : ExecMode) (rfqOk : Bool)
    (fallback : Option ExecMode) (hasConfig smartOk placeOk : Bool) : List TState :=
  if pre ≠ TState.pendingOpen then []
  else
    match mode with
    | ExecMode.rfq => openRfqTrace rfqOk fallback hasConfig smartOk placeOk
    | ExecMode.smart => openSmartTrace hasConfig smartOk
    | ExecMode.limit => openLimitTrace placeOk

/-- State assignments performed by `_close_limit` (trade_lifecycle.py:691-741):
sets CLOSING; then CLOSED when no close legs remain, or back to
PENDING_CLOSE when placing close orders fails. -/
def closeLimitTrace (noLegsLeft placeOk : Bool) : List TState :=
  if noLegsLeft then [TState.closing, TState.closed]
  else if placeOk then [TState.closing]
  else [TState.closing, TState.pendingClose]

/-- State assignments performed by `_close_rfq` (trade_lifecycle.py:628-689):
CLOSED directly on RFQ success; on failure the limit fallback's trace if
configured, else PENDING_CLOSE for a retry on the next tick. -/
def closeRfqTrace (rfqOk fallback noLegsLeft placeOk : Bool) : List TState :=
  if rfqOk then [TState.closed]
  else if fallback then closeLimitTrace noLegsLeft placeOk
  else [TState.pendingClose]

/-- `LifecycleManager.close` (trade_lifecycle.py:596-626): no state change
unless the trade is OPEN or PENDING_CLOSE; rfq mode goes through
`_close_rfq`, the others through `_close_limit`. -/
def closeTrace (pre : TState) (mode : ExecMode)
    (rfqOk fallback noLegsLeft placeOk : Bool) : List TState :=
  if pre ≠ TState.openSt ∧ pre ≠ TState.pendingClose then []
  else
    match mode with
    | ExecMode.rfq => closeRfqTrace rfqOk fallback noLegsLeft placeOk
    | _ => closeLimitTrace noLegsLeft placeOk

/-- Fill-check result reported by `LimitFillManager.check`. -/
inductive CheckResult where
  | filled
  | requoted
  | failed
  | pending
deriving DecidableEq, Repr, Fintype

/-- `_unwind_filled_legs` (trade_lifecycle.py:753-766): trims the open legs
to the filled set and passes through OPEN into PENDING_CLOSE. -/
def unwindTrace : List TState := [TState.openSt, TState.pendingClose]

/-- `_check_open_fills` (trade_lifecycle.py:768-822), called with the trade
in OPENING: OPEN when the fill manager reports filled; on `failed`, the
unwind trace when some leg has a positive fill, else FAILED. -/
def checkOpenFillsTrace (result : CheckResult) (anyFills : Bool) : List TState :=
  match result with
  | CheckResult.filled => [TState.openSt]
  | CheckResult.failed => if anyFills then unwindTrace else [TState.failed]
  | _ => []

/-- `_check_close_fills` (trade_lifecycle.py:824-867), called with the trade
in CLOSING: CLOSED when filled, PENDING_CLOSE on exhausted requotes. -/
def checkCloseFillsTrace (result : CheckResult) : List TState :=
  match result with
  | CheckResult.filled => [TState.closed]
  | CheckResult.failed => [TState.pendingClose]
  | _ => []

/-- `_evaluate_exits` (trade_lifecycle.py:873-885), called with the trade in
OPEN: PENDING_CLOSE when some exit condition fires. -/
def evaluateExitsTrace (anyExit : Bool) : List TState :=
  if anyExit then [TState.pendingClose] else []

/-- `cancel` (trade_lifecycle.py:984-1034): rejected outside
PENDING_OPEN / OPENING; otherwise the unwind trace when some leg satisfies
`is_filled` (`filled_qty >= qty`), else FAILED. -/
def cancelTrace (pre : TState) (anyLegIsFilled : Bool) : List TState :=
  if pre ≠ TState.pendingOpen ∧ pre ≠ TState.opening then []
  else if anyLegIsFilled then unwindTrace
  else [TState.failed]

/-- `force_close` (trade_lifecycle.py:935-982): OPEN → PENDING_CLOSE;
PENDING_CLOSE no-op; PENDING_OPEN / OPENING delegate to `cancel`;
CLOSING → PENDING_CLOSE; terminal states no-op. -/
def forceCloseTrace (pre : TState) (anyLegIsFilled : Bool) : List TState :=
  match pre with
  | TState.openSt => [TState.pendingClose]
  | TState.pendingClose => []
  | TState.pendingOpen => cancelTrace pre anyLegIsFilled
  | TState.opening => cancelTrace pre anyLegIsFilled
  | TState.closing => [TState.pendingClose]
  | _ => []

/-! ## Trade legs, cancel routing and close-leg rebuilding -/

/-- A `TradeLeg` of `trade_lifecycle.py`: symbol, target quantity, side
(1 = buy, 2 = sell in the source, embedded as `Side`), and the
progressively written `filled_qty`. -/
structure TradeLeg where
  symbol : String
  qty : Rat
  side : Side
  filledQty : Rat
deriving DecidableEq, Repr

/-- `TradeLeg.is_filled`: `filled_qty >= qty`. -/
def TradeLeg.isFilled (l : TradeLeg) : Bool := l.qty ≤ l.filledQty

/-- `TradeLeg.close_side`: the opposite side, for closing the leg. -/
def closeSide : Side → Side
  | Side.buy => Side.sell
  | Side.sell => Side.buy

/-- Outcome of `LifecycleManager.cancel` on a cancellable trade. -/
inductive CancelOutcome where
  /-- Not in PENDING_OPEN or OPENING: rejected, nothing changes. -/
  | rejected
  /-- Some legs counted as filled: open legs trimmed to them, unwind path. -/
  | unwound (legs : List TradeLeg)
  /-- No leg counted as filled: trade FAILED with error set. -/
  | failedNoFills (error : String)
deriving DecidableEq, Repr

/-- `LifecycleManager.cancel` (trade_lifecycle.py:984-1034), the decision
after outstanding orders are cancelled: legs passing `is_filled`
(`filled_qty >= qty`) are collected; a nonempty collection is unwound via
`_unwind_filled_legs`, an empty one marks the trade FAILED. -/
def cancelDecision (pre : TState) (legs : List TradeLeg) : CancelOutcome :=
  if pre ≠ TState.pendingOpen ∧ pre ≠ TState.opening then
    CancelOutcome.rejected
  else
    let filledLegs := legs.filter TradeLeg.isFilled
    if filledLegs.isEmpty then
      CancelOutcome.failedNoFills "Cancelled by user"
    else
      CancelOutcome.unwound filledLegs

/-- The quantity a close leg starts from in `_close_limit` and `_close_rfq`:
`filled_qty if filled_qty > 0 else qty`. -/
def baseQty (l : TradeLeg) : Rat := if 0 < l.filledQty then l.filledQty else l.qty

/-- The `old_close_filled` dict of `_close_limit` (trade_lifecycle.py:705-709)
as a lookup function: iterating the previous close legs in order, legs with
a positive `filled_qty` write their quantity under their symbol (later
entries overwrite earlier ones); missing symbols read 0. -/
def oldCloseFilled (closeLegs : List TradeLeg) : String → Rat :=
  closeLegs.foldl
    (fun m cl =>
      if 0 < cl.filledQty then
        fun s => if s = cl.symbol then cl.filledQty else m s
      else m)
    (fun _ => 0)

/-- `_close_limit`'s close-leg rebuild (trade_lifecycle.py:711-721): one close
leg per open leg with the side reversed and quantity
`(filled_qty or qty) - already_closed`, keeping only positive quantities. -/
def rebuildCloseLegs (openLegs prevCloseLegs : List TradeLeg) : List TradeLeg :=
  openLegs.filterMap
    (fun leg =>
      let q := baseQty leg - oldCloseFilled prevCloseLegs leg.symbol
      if 0 < q then
        some { symbol := leg.symbol, qty := q, side := closeSide leg.side,
               filledQty := 0 }
      else none)

/-- The close-leg list as §4.2 "Close-leg construction" words it: map every
open leg to its reversed-side leg with quantity
`(filled_qty or qty) - already_closed_qty`, then omit non-positive
quantities. -/
def closeLegsSpec (openLegs prevCloseLegs : List TradeLeg) : List TradeLeg :=
  (openLegs.map
    (fun leg =>
      { symbol := leg.symbol,
        qty := baseQty leg - oldCloseFilled prevCloseLegs leg.symbol,
        side := closeSide leg.side,
        filledQty := (0 : Rat) })).filter (fun l => 0 < l.qty)

/-- Result of one `_close_limit` attempt: the rebuilt close legs, the state
the trade ends in, and whether `closed_at` was stamped. -/
structure CloseLimitResult where
  closeLegs : List TradeLeg
  state : TState
  closedAtSet : Bool
deriving DecidableEq, Repr

/-- `_close_limit` (trade_lifecycle.py:691-741) as a state step: rebuild the
close legs; an empty rebuild goes directly to CLOSED with `closed_at` set;
otherwise the trade sits in CLOSING (or back in PENDING_CLOSE when order
placement fails). -/
def closeLimitStep (openLegs prevCloseLegs : List TradeLeg) (placeOk : Bool) :
    CloseLimitResult :=
  let legs := rebuildCloseLegs openLegs prevCloseLegs
  if legs.isEmpty then
    { closeLegs := legs, state := TState.closed, closedAtSet := true }
  else if placeOk then
    { closeLegs := legs, state := TState.closing, closedAtSet := false }
  else
    { closeLegs := legs, state := TState.pendingClose, closedAtSet := false }

/-! ## Execution-mode routing (`_determine_execution_mode`) -/

/-- Mark-price oracle: for each symbol, the `mark` field of a freshly
fetched orderbook, or `none` when the book cannot be fetched. -/
def Marks := String → Option Rat

/-- The accumulating loop of `_calculate_notional`. -/
def notionalAux (marks : Marks) (acc : Rat) : List TradeLeg → Rat
  | [] => acc
  | leg :: rest =>
    match marks leg.symbol with
    | none => notionalAux marks acc rest
    | some m =>
      if m ≤ 0 then notionalAux marks acc rest
      else notionalAux marks (acc + m * leg.qty) rest

/-- `_calculate_notional` (trade_lifecycle.py:389-424): sum of
`mark_price * qty` over legs; a leg whose book cannot be fetched, or whose
mark is not positive, contributes nothing. -/
def calculate_notional (marks : Marks) (legs : List TradeLeg) : Rat :=
  notionalAux marks 0 legs

/-- The per-leg notional contribution as §4.2 routing words it:
`mark_price × qty`, with zero for a leg whose mark cannot be fetched or is
not positive. -/
def notionalContrib (marks : Marks) (leg : TradeLeg) : Rat :=
  match marks leg.symbol with
  | none => 0
  | some m => if m ≤ 0 then 0 else m * leg.qty

/-- The notional as the spec words it: `Σ mark_price × qty` over legs. -/
def notionalSpec (marks : Marks) (legs : List TradeLeg) : Rat :=
  (legs.map (notionalContrib marks)).sum

/-- Default routing thresholds of `LifecycleManager.__init__`
(trade_lifecycle.py:257-261). -/
def rfq_notional_threshold : Rat := 50000

/-- Default smart-routing threshold of `LifecycleManager.__init__`. -/
def smart_notional_threshold : Rat := 10000

/-- `_determine_execution_mode` (trade_lifecycle.py:351-387): a single leg
routes to limit; otherwise the notional is compared against the two
thresholds. -/
def determine_execution_mode (rfqTh smartTh : Rat) (marks : Marks)
    (legs : List TradeLeg) : ExecMode :=
  if legs.length = 1 then ExecMode.limit
  else
    let notional := calculate_notional marks legs
    if rfqTh ≤ notional then ExecMode.rfq
    else if smartTh ≤ notional then ExecMode.smart
    else ExecMode.limit

/-! ## Account poller (`account_manager.py`) -/

/-- The position fields the poller copies into a `PositionSnapshot`. -/
structure PosData where
  symbol : String
  qty : Rat
  delta : Rat
deriving DecidableEq, Repr

/-- The account-summary fields the poller copies into an `AccountSnapshot`. -/
structure AcctData where
  equity : Rat
  availableMargin : Rat
  initialMargin : Rat
  maintenanceMargin : Rat
  unrealizedPnl : Rat
deriving DecidableEq, Repr

/-- One poll iteration's fetch outcomes: `none` models a failed HTTP call
(the exception is caught inside `AccountManager`). -/
structure FetchEnv where
  positionsFetch : Option (List PosData)
  acctFetch : Option AcctData
deriving DecidableEq, Repr

/-- `AccountManager.get_positions` (account_manager.py:166-223) with
`force_refresh=True`: the fetched list on success, the empty list on any
failure (the `except` branches return `[]`). -/
def get_positions (e : FetchEnv) : List PosData :=
  e.positionsFetch.getD []

/-- `AccountManager.get_account_info` (account_manager.py:121-164) with
`force_refresh=True`: the fetched summary, or `none` on failure. -/
def get_account_info (e : FetchEnv) : Option AcctData :=
  e.acctFetch

/-- The `AccountSnapshot` fields the embedded poller computes. -/
structure AccountSnap where
  equity : Rat
  availableMargin : Rat
  initialMargin : Rat
  maintenanceMargin : Rat
  unrealizedPnl : Rat
  marginUtilization : Rat
  positions : List PosData
  netDelta : Rat
deriving DecidableEq, Repr

/-- `PositionMonitor.snapshot` (account_manager.py:426-496): positions come
from `get_positions` (empty on failure), the account dict from
`get_account_info(...) or {}` (all fields default 0 on failure); the
resulting snapshot is always built and stored as the latest. -/
def snapshot (e : FetchEnv) : AccountSnap :=
  let ps := get_positions e
  let acct := (get_account_info e).getD
    { equity := 0, availableMargin := 0, initialMargin := 0,
      maintenanceMargin := 0, unrealizedPnl := 0 }
  { equity := acct.equity,
    availableMargin := acct.availableMargin,
    initialMargin := acct.initialMargin,
    maintenanceMargin := acct.maintenanceMargin,
    unrealizedPnl := acct.unrealizedPnl,
    marginUtilization :=
      if 0 < acct.equity then acct.initialMargin / acct.equity * 100 else 0,
    positions := ps,
    netDelta := ps.foldl (fun acc p => acc + p.delta) 0 }

/-- One iteration of `PositionMonitor._poll_loop` (account_manager.py:523-544):
`snapshot()` (which installs itself as `_latest`), then every callback is
invoked with that snapshot. Returns the new `_latest` and the snapshot
delivered to callbacks (`none` would mean delivery was skipped). -/
def pollIteration (_latest : Option AccountSnap) (e : FetchEnv) :
    Option AccountSnap × Option AccountSnap :=
  let snap := snapshot e
  (some snap, some snap)

/-! ## Limit fill manager (`trade_execution.py`) -/

/-- `ExecutionParams` (trade_execution.py:133-149). -/
structure ExecutionParams where
  fillTimeoutSeconds : Rat
  aggressiveBufferPct : Rat
  maxRequoteRounds : Nat
deriving DecidableEq, Repr

/-- `_LegFillState` (trade_execution.py:156-178). -/
structure LegFillState where
  symbol : String
  qty : Rat
  side : Side
  orderId : Option String
  filledQty : Rat
  fillPrice : Option Rat
  requoteCount : Nat
deriving DecidableEq, Repr

/-- `_LegFillState.is_filled`: `filled_qty >= qty`. -/
def LegFillState.isFilled (l : LegFillState) : Bool := l.qty ≤ l.filledQty

/-- `_LegFillState.remaining_qty`: `max(0, qty - filled_qty)`. -/
def LegFillState.remainingQty (l : LegFillState) : Rat := max 0 (l.qty - l.filledQty)

/-- The order-status fields `check` reads from `get_order_status`. -/
structure OrderInfo where
  fillQty : Rat
  avgPrice : Rat
  state : Nat
deriving DecidableEq, Repr

/-- Venue oracles used by `LimitFillManager`: order-status queries, fresh
aggressive prices, and order placement (returning the new order id). -/
structure VenueEnv where
  status : String → Option OrderInfo
  price : String → Side → Option Rat
  place : String → Option String
deriving Inhabited

/-- The polling step of `LimitFillManager.check` (trade_execution.py:274-296)
for one leg: unfilled legs with an order id read the venue's fill quantity;
a grown fill updates `filled_qty` and (when `avgPrice` is nonzero) the fill
price. -/
def pollLeg (env : VenueEnv) (l : LegFillState) : LegFillState :=
  if l.isFilled then l
  else
    match l.orderId with
    | none => l
    | some oid =>
      match env.status oid with
      | none => l
      | some info =>
        if l.filledQty < info.fillQty then
          { l with filledQty := info.fillQty,
                   fillPrice := if info.avgPrice ≠ 0 then some info.avgPrice
                                else l.fillPrice }
        else l

/-- An order submitted during a requote round. -/
structure PlacedOrder where
  symbol : String
  qty : Rat
  side : Side
  price : Rat
deriving DecidableEq, Repr

/-- `_requote_unfilled` (trade_execution.py:354-395) for one leg: filled legs
and legs without an order id are skipped; otherwise the stale order is
cancelled (best effort), and when a fresh price and a successful placement
are available a new order for `remaining_qty` is submitted, the leg's order
id is replaced and its requote counter incremented. -/
def requoteLeg (env : VenueEnv) (l : LegFillState) :
    LegFillState × List PlacedOrder :=
  if l.isFilled then (l, [])
  else
    match l.orderId with
    | none => (l, [])
    | some _ =>
      match env.price l.symbol l.side with
      | none => (l, [])
      | some p =>
        match env.place l.symbol with
        | none => (l, [])
        | some newId =>
          ({ l with orderId := some newId, requoteCount := l.requoteCount + 1 },
           [{ symbol := l.symbol, qty := l.remainingQty, side := l.side,
              price := p }])

/-- Result of one `LimitFillManager.check` call: the outcome string, the
updated legs, the orders placed by a requote, and whether the
round-started-at stamp was reset. -/
structure CheckOutcome where
  result : CheckResult
  legs : List LegFillState
  placed : List PlacedOrder
  roundReset : Bool
deriving Repr

/-- `LimitFillManager.check` (trade_execution.py:263-321): poll every leg;
`filled` when all legs are filled; otherwise, once the elapsed time exceeds
the fill timeout, `failed` when some unfilled leg has reached the max
requote rounds and `requoted` (performing `_requote_unfilled`, which resets
the round stamp) otherwise; `pending` before the timeout. -/
def fillManagerCheck (params : ExecutionParams) (env : VenueEnv)
    (elapsed : Rat) (legs : List LegFillState) : CheckOutcome :=
  let polled := legs.map (pollLeg env)
  if polled.all LegFillState.isFilled then
    { result := CheckResult.filled, legs := polled, placed := [],
      roundReset := false }
  else if params.fillTimeoutSeconds < elapsed then
    let unfilled := polled.filter (fun l => !l.isFilled)
    if unfilled.any (fun l => params.maxRequoteRounds ≤ l.requoteCount) then
      { result := CheckResult.failed, legs := polled, placed := [],
        roundReset := false }
    else
      let requoted := polled.map (requoteLeg env)
      { result := CheckResult.requoted,
        legs := requoted.map Prod.fst,
        placed := (requoted.map Prod.snd).flatten,
        roundReset := true }
  else
    { result := CheckResult.pending, legs := polled, placed := [],
      roundReset := false }

/-! ## Smart multi-leg executor (`multileg_orderbook.py`) -/

/-- `LegChunkState.is_filled` (multileg_orderbook.py:148-151): a chunk leg
counts as filled once `filled_qty >= total_qty * 0.99` (1% tolerance). -/
def legChunkIsFilled (filledQty totalQty : Rat) : Bool :=
  totalQty * (99 / 100) ≤ filledQty

/-- A leg target of a smart execution: symbol and target quantity. -/
structure SmartLeg where
  symbol : String
  qty : Rat
deriving DecidableEq, Repr

/-- Position oracle of the smart executor: `posAt k s` is the absolute
position quantity of symbol `s` observed before chunk `k`, and `posFinal s`
the one observed by the final position check. -/
structure SmartEnv where
  posAt : Nat → String → Rat
  posFinal : String → Rat

/-- The per-leg fill delta measured in `execute_smart_multi_leg`:
`abs(current_position - starting_position)`. -/
def filledDelta (pos start : String → Rat) (s : String) : Rat :=
  |pos s - start s|

/-- The remaining target of one leg before a chunk:
`max(0, target - filled_delta)`. -/
def remainingTarget (target delta : Rat) : Rat := max 0 (target - delta)

/-- The early-stop test at the head of each chunk iteration
(multileg_orderbook.py:307-319): `all_filled` stays true iff no leg's
remaining quantity exceeds `min_order_qty`. -/
def allLegsDone (minOrderQty : Rat) (legs : List SmartLeg)
    (start : String → Rat) (env : SmartEnv) (k : Nat) : Bool :=
  legs.all (fun leg =>
    remainingTarget leg.qty (filledDelta (env.posAt k) start leg.symbol)
      ≤ minOrderQty)

/-- The chunk loop of `execute_smart_multi_leg`, reduced to the number of
chunks it executes: starting at chunk `k` with `n` chunks left, it stops as
soon as `allLegsDone` holds, else executes the chunk and continues. -/
def chunksExecuted (minOrderQty : Rat) (legs : List SmartLeg)
    (start : String → Rat) (env : SmartEnv) : Nat → Nat → Nat
  | 0, k => k
  | n + 1, k =>
    if allLegsDone minOrderQty legs start env k then k
    else chunksExecuted minOrderQty legs start env n (k + 1)

/-- The `SmartExecResult` fields the embedded claims are about. -/
structure SmartResult where
  success : Bool
  chunksCompleted : Nat
  chunksTotal : Nat
  totalFilledQty : String → Rat

/-- `execute_smart_multi_leg` (multileg_orderbook.py:244-409), reduced to its
loop skeleton: run up to `chunk_count` chunks with the early-stop test, then
report success with fills measured from the final position check. The
result is `success := true` whether or not the targets were reached. -/
def executeSmartMultiLeg (chunkCount : Nat) (minOrderQty : Rat)
    (legs : List SmartLeg) (start : String → Rat) (env : SmartEnv) :
    SmartResult :=
  { success := true,
    chunksCompleted := chunksExecuted minOrderQty legs start env chunkCount 0,
    chunksTotal := chunkCount,
    totalFilledQty := fun s => filledDelta env.posFinal start s }

/-! ## Theorems -/

theorem legOrderbookCost_eq_buySpec (books : Books) (leg : OptionLeg) :
    legOrderbookCost books leg = legBaselineSpec books Side.buy leg := by
  obtain ⟨ins, side, qty⟩ := leg
  cases side <;> cases h : books ins <;>
    simp [legOrderbookCost, legBaselineSpec, h]

theorem obCostAux_eq_buySpecAux (books : Books) (legs : List OptionLeg)
    (acc : Rat) :
    obCostAux books acc legs = baselineSpecAux books Side.buy acc legs := by
  induction legs generalizing acc with
  | nil => rfl
  | cons leg rest ih =>
    simp only [obCostAux, baselineSpecAux, legOrderbookCost_eq_buySpec]
    cases legBaselineSpec books Side.buy leg <;> simp [ih]

theorem obCostAux_none_of_missing (books : Books) (leg : OptionLeg)
    (hnone : books leg.instrument = none) :
    ∀ (legs : List OptionLeg) (acc : Rat), leg ∈ legs →
      obCostAux books acc legs = none := by
  intro legs
  induction legs with
  | nil => intro acc h; cases h
  | cons l rest ih =>
    intro acc hmem
    rcases List.mem_cons.mp hmem with rfl | hmem
    · simp [obCostAux, legOrderbookCost, hnone]
    · simp only [obCostAux]
      cases h : legOrderbookCost books l with
      | none => rfl
      | some d => exact ih _ hmem

/-- C1: the claim says every accepted quote satisfies
`improvement ≥ min_improvement_pct` when the gate is configured and the
baseline is known, including quotes accepted after the best quote's
acceptance fails. Counterexample: with baseline 110 and
`min_improvement_pct = 0`, the best quote (cost 100, improvement ≈ +9.1%)
passes the gate but its acceptance fails, and the fall-through accepts the
next quote (cost 200) whose improvement is negative. -/
theorem c1_gate_counterexample :
    costSorted [⟨"q1", 100⟩, ⟨"q2", 200⟩] ∧
    acceptPhase [⟨"q1", 100⟩, ⟨"q2", 200⟩] (some 110) 0
      (fun qid => qid == "q2") = some ⟨"q2", 200⟩ ∧
    calculate_improvement 200 110 < 0 := by
  refine ⟨?_, ?_, ?_⟩
  · exact List.chain'_cons.mpr ⟨by norm_num, List.chain'_singleton _⟩
  · norm_num [acceptPhase, calculate_improvement, List.find?]
    rfl
  · norm_num [calculate_improvement]

/-- C1 (amended): the improvement gate is checked only against the best
(first, cost-sorted) quote: when the baseline is known, a quote is accepted
in an iteration only if the best quote's improvement meets
`min_improvement_pct`; the accepted quote is the first whose acceptance
succeeds and is not itself re-gated. -/
theorem c1_improvement_gate_best_only (quotes : List RFQQuote)
    (b minImp : Rat) (acceptOk : String → Bool) (q : RFQQuote)
    (h : acceptPhase quotes (some b) minImp acceptOk = some q) :
    q ∈ quotes ∧ acceptOk q.quote_id = true ∧
      ∃ best rest, quotes = best :: rest ∧
        minImp ≤ calculate_improvement best.total_cost b := by
  cases quotes with
  | nil => simp [acceptPhase] at h
  | cons best rest =>
    simp only [acceptPhase] at h
    rcases Classical.em (calculate_improvement best.total_cost b < minImp)
      with hlt | hge
    · rw [if_pos hlt] at h
      exact absurd h (by simp)
    · rw [if_neg hge] at h
      have hp := List.find?_some h
      exact ⟨List.mem_of_find?_eq_some h, hp, best, rest, rfl,
        le_of_not_lt hge⟩

/-- Witness for the amended C1 theorem at a concrete input. -/
theorem c1_improvement_gate_best_only_witness :
    (⟨"a", 100⟩ : RFQQuote) ∈ [(⟨"a", 100⟩ : RFQQuote)] ∧
    (fun _ : String => true) (RFQQuote.quote_id ⟨"a", 100⟩) = true ∧
    ∃ best rest, [(⟨"a", 100⟩ : RFQQuote)] = best :: rest ∧
      (0 : Rat) ≤ calculate_improvement best.total_cost 100 :=
  c1_improvement_gate_best_only [⟨"a", 100⟩] 100 0 (fun _ => true)
    ⟨"a", 100⟩ (by norm_num [acceptPhase, calculate_improvement, List.find?])

/-- C2: the claim (and the function's own docstring) state the single
formula `(baseline − quote) / |baseline| × 100` with positive meaning the
quote beats the book. For a negative baseline the code computes the
negation of that formula: at quote −110 against baseline −100 (the quote
receives a larger credit, hence is better) the code reports −10 while the
documented formula gives +10. -/
theorem c2_negative_baseline_sign_flip :
    calculate_improvement (-110) (-100) = -10 ∧
    improvementSpec (-110) (-100) = 10 := by
  constructor <;> norm_num [calculate_improvement, improvementSpec]

/-- C6: the claim says the baseline uses the best ask for legs the taker is
*effectively buying* (`action == buy` XOR `leg.side == sell`). The code's
`get_orderbook_cost` never sees the action: with a sell action on a BUY leg
the claim's rule subtracts the best bid (here −1) while the code adds the
best ask (here +2). -/
theorem c6_action_ignored_counterexample :
    get_orderbook_cost (fun _ => some ⟨[1], [2]⟩) [⟨"S", Side.buy, 1⟩]
      = some 2 ∧
    baselineSpec (fun _ => some ⟨[1], [2]⟩) Side.sell [⟨"S", Side.buy, 1⟩]
      = some (-1) := by
  constructor
  · norm_num [get_orderbook_cost, obCostAux, legOrderbookCost]
  · norm_num [baselineSpec, baselineSpecAux, legBaselineSpec]
    rw [if_pos ⟨Eq.symm, Eq.symm⟩]

/-- C6 (amended): the orderbook baseline depends on each leg's own side
only, independent of the taker action — BUY legs add the best ask and SELL
legs subtract the best bid (this coincides with the spec's effective-buy
rule exactly when the action is buy); if any leg's orderbook is unavailable
the baseline is unknown (`none`), and with an unknown baseline the accept
phase applies no improvement gate. -/
theorem c6_baseline_side_only (books : Books) (legs : List OptionLeg)
    (quotes : List RFQQuote) (minImp : Rat) (acceptOk : String → Bool) :
    get_orderbook_cost books legs = baselineSpec books Side.buy legs ∧
    (∀ leg ∈ legs, books leg.instrument = none →
      get_orderbook_cost books legs = none) ∧
    acceptPhase quotes none minImp acceptOk
      = quotes.find? (fun q => acceptOk q.quote_id) := by
  refine ⟨obCostAux_eq_buySpecAux books legs 0, ?_, ?_⟩
  · intro leg hmem hnone
    exact obCostAux_none_of_missing books leg hnone legs 0 hmem
  · cases quotes <;> rfl

/-- Witness for the C6 theorem at a concrete input. -/
theorem c6_baseline_side_only_witness :
    get_orderbook_cost (fun _ => none) [⟨"S", Side.buy, 1⟩] = none := by
  have h := c6_baseline_side_only (fun _ => none) [⟨"S", Side.buy, 1⟩]
    [] 0 (fun _ => true)
  exact h.2.1 ⟨"S", Side.buy, 1⟩ (by simp) rfl

/-- C3: the claim says every state change follows the legal graph, and in
particular that no trade moves from PENDING_OPEN directly to OPEN nor from
OPEN directly to CLOSED. Counterexample: a successful RFQ open assigns OPEN
directly from PENDING_OPEN (`_open_rfq`, trade_lifecycle.py:500-510), and a
successful RFQ close assigns CLOSED directly from OPEN (`_close_rfq`,
trade_lifecycle.py:666-674). -/
theorem c3_rfq_skips_states_counterexample :
    chainOk legalEdge TState.pendingOpen
      (openTrace TState.pendingOpen ExecMode.rfq true none true true true)
      = false ∧
    chainOk legalEdge TState.openSt
      (closeTrace TState.openSt ExecMode.rfq true false false true)
      = false := by
  constructor <;> decide

/-- C3 (amended): every state change of the modelled manager operations
follows an edge of the legal graph extended with the atomic-RFQ edges
PENDING_OPEN → OPEN, OPEN → CLOSED, PENDING_CLOSE → CLOSED and the direct
close edge OPEN → CLOSING. -/
theorem c3_transitions_follow_extended_graph :
    (∀ (pre : TState) (mode : ExecMode) (rfqOk : Bool)
        (fb : Option ExecMode) (hc so po : Bool),
      chainOk legalEdgeExt pre (openTrace pre mode rfqOk fb hc so po) = true) ∧
    (∀ (pre : TState) (mode : ExecMode) (rfqOk fb nl po : Bool),
      chainOk legalEdgeExt pre (closeTrace pre mode rfqOk fb nl po) = true) ∧
    (∀ (r : CheckResult) (anyFills : Bool),
      chainOk legalEdgeExt TState.opening (checkOpenFillsTrace r anyFills)
        = true) ∧
    (∀ (r : CheckResult),
      chainOk legalEdgeExt TState.closing (checkCloseFillsTrace r) = true) ∧
    (∀ (b : Bool),
      chainOk legalEdgeExt TState.openSt (evaluateExitsTrace b) = true) ∧
    (∀ (pre : TState) (b : Bool),
      chainOk legalEdgeExt pre (cancelTrace pre b) = true) ∧
    (∀ (pre : TState) (b : Bool),
      chainOk legalEdgeExt pre (forceCloseTrace pre b) = true) := by
  refine ⟨?_, ?_, ?_, ?_, ?_, ?_, ?_⟩ <;> decide

/-- C4: the claim says a cancelled trade with any nonzero fill — including a
partial fill `0 < filled_qty < qty` — routes through the unwind path.
Counterexample: a single leg with qty 1 and filled quantity 1/2 fails the
code's `is_filled` test (`filled_qty >= qty`), so `cancel` marks the trade
FAILED instead of unwinding the partial fill. -/
theorem c4_cancel_ignores_partial_fill :
    (0 : Rat) < 1 / 2 ∧ (1 / 2 : Rat) < 1 ∧
    cancelDecision TState.opening [⟨"S", 1, Side.buy, 1 / 2⟩]
      = CancelOutcome.failedNoFills "Cancelled by user" := by
  refine ⟨by norm_num, by norm_num, ?_⟩
  norm_num [cancelDecision, List.filter, TradeLeg.isFilled]

/-- C4 (amended): `cancel` succeeds only from PENDING_OPEN or OPENING; legs
count as filled only under `is_filled` (`filled_qty >= qty`), so the trade
routes through the unwind path (open legs trimmed to the fully filled set,
through OPEN, then PENDING_CLOSE) iff some leg is fully filled; otherwise —
including when only partial fills `0 < filled_qty < qty` exist — it becomes
FAILED with the error set. -/
theorem c4_cancel_full_fill_only (pre : TState) (legs : List TradeLeg) :
    (pre ≠ TState.pendingOpen ∧ pre ≠ TState.opening →
      cancelDecision pre legs = CancelOutcome.rejected) ∧
    (pre = TState.pendingOpen ∨ pre = TState.opening →
      ((∃ l ∈ legs, l.isFilled = true) →
        cancelDecision pre legs
          = CancelOutcome.unwound (legs.filter TradeLeg.isFilled)) ∧
      ((∀ l ∈ legs, l.isFilled = false) →
        cancelDecision pre legs
          = CancelOutcome.failedNoFills "Cancelled by user") ∧
      chainOk legalEdgeExt pre
        (cancelTrace pre (legs.any TradeLeg.isFilled)) = true) := by
  have haux : ∀ (p : TState) (b : Bool),
      chainOk legalEdgeExt p (cancelTrace p b) = true := by decide
  constructor
  · intro hpre
    simp [cancelDecision, hpre.1, hpre.2]
  · intro hpre
    have hguard : ¬(pre ≠ TState.pendingOpen ∧ pre ≠ TState.opening) := by
      rcases hpre with rfl | rfl <;> simp
    refine ⟨?_, ?_, haux pre _⟩
    · rintro ⟨l, hl, hfill⟩
      have hne : ¬(legs.filter TradeLeg.isFilled).isEmpty := by
        simp only [List.isEmpty_iff]
        intro hnil
        have := List.mem_filter.mpr ⟨hl, hfill⟩
        rw [hnil] at this
        cases this
      simp [cancelDecision, hguard, hne]
    · intro hnone
      have hempty : (legs.filter TradeLeg.isFilled).isEmpty := by
        simp only [List.isEmpty_iff]
        rcases hfe : legs.filter TradeLeg.isFilled with _ | ⟨l, rest⟩
        · rfl
        · have hmem : l ∈ legs.filter TradeLeg.isFilled := by
            rw [hfe]; exact List.mem_cons_self l rest
          have := List.mem_filter.mp hmem
          rw [hnone l this.1] at this
          cases this.2
      simp [cancelDecision, hguard, hempty]

/-- Witness for the amended C4 theorem at a concrete input. -/
theorem c4_cancel_full_fill_only_witness :
    cancelDecision TState.opening [⟨"S", 1, Side.buy, 1⟩]
      = CancelOutcome.unwound
          ([(⟨"S", 1, Side.buy, 1⟩ : TradeLeg)].filter TradeLeg.isFilled) :=
  ((c4_cancel_full_fill_only TState.opening [⟨"S", 1, Side.buy, 1⟩]).2
    (Or.inr rfl)).1 ⟨⟨"S", 1, Side.buy, 1⟩, by simp,
      by simp [TradeLeg.isFilled]⟩

theorem rebuildCloseLegs_eq_spec (openLegs prev : List TradeLeg) :
    rebuildCloseLegs openLegs prev = closeLegsSpec openLegs prev := by
  induction openLegs with
  | nil => rfl
  | cons leg rest ih =>
    simp only [rebuildCloseLegs, closeLegsSpec] at ih ⊢
    simp only [List.filterMap_cons, List.map_cons, List.filter_cons]
    by_cases hq : 0 < baseQty leg - oldCloseFilled prev leg.symbol
    · simp only [if_pos hq, decide_eq_true_eq]
      rw [ih]
    · simp only [if_neg hq, decide_eq_true_eq]
      exact ih

/-- C5: each entry to CLOSING rebuilds the close legs from the open legs —
same symbol, side reversed, quantity `(filled_qty if positive else qty)`
minus the quantity already closed for that symbol — omitting non-positive
quantities, and goes directly to CLOSED (stamping `closed_at`) when nothing
remains, so consecutive close attempts never place overlapping orders. -/
theorem c5_close_leg_rebuild (openLegs prev : List TradeLeg) (placeOk : Bool) :
    rebuildCloseLegs openLegs prev = closeLegsSpec openLegs prev ∧
    (∀ l ∈ rebuildCloseLegs openLegs prev, 0 < l.qty) ∧
    (closeLimitStep openLegs prev placeOk).closeLegs
      = rebuildCloseLegs openLegs prev ∧
    (rebuildCloseLegs openLegs prev = [] →
      (closeLimitStep openLegs prev placeOk).state = TState.closed ∧
      (closeLimitStep openLegs prev placeOk).closedAtSet = true) := by
  refine ⟨rebuildCloseLegs_eq_spec openLegs prev, ?_, ?_, ?_⟩
  · intro l hl
    rw [rebuildCloseLegs_eq_spec] at hl
    have := List.of_mem_filter hl
    simpa using this
  · simp only [closeLimitStep]
    split <;> [rfl; split <;> rfl]
  · intro hnil
    simp [closeLimitStep, hnil]

/-- Witness for the C5 theorem at a concrete input: one open leg fully
filled (qty 1) and a previous close attempt that already closed 1, so the
rebuild is empty and the step lands in CLOSED with `closed_at` set. -/
theorem c5_close_leg_rebuild_witness :
    (closeLimitStep [⟨"S", 1, Side.buy, 1⟩] [⟨"S", 1, Side.sell, 1⟩]
        true).state = TState.closed ∧
    (closeLimitStep [⟨"S", 1, Side.buy, 1⟩] [⟨"S", 1, Side.sell, 1⟩]
        true).closedAtSet = true :=
  (c5_close_leg_rebuild [⟨"S", 1, Side.buy, 1⟩] [⟨"S", 1, Side.sell, 1⟩]
      true).2.2.2
    (by norm_num [rebuildCloseLegs, List.filterMap, baseQty, oldCloseFilled,
      List.foldl])

theorem notionalAux_eq (marks : Marks) (legs : List TradeLeg) (acc : Rat) :
    notionalAux marks acc legs = acc + notionalSpec marks legs := by
  induction legs generalizing acc with
  | nil => simp [notionalAux, notionalSpec]
  | cons leg rest ih =>
    cases h : marks leg.symbol with
    | none => simp [notionalAux, h, ih, notionalSpec, notionalContrib]
    | some m =>
      by_cases hm : m ≤ 0
      · simp [notionalAux, h, hm, ih, notionalSpec, notionalContrib]
      · simp [notionalAux, h, hm, ih, notionalSpec, notionalContrib]
        ring

/-- C7: with no explicit execution mode, the router picks limit for exactly
one leg; otherwise rfq when the notional reaches `rfq_threshold`
(default 50000), smart between `smart_threshold` (default 10000) and
`rfq_threshold`, and limit below `smart_threshold` — the notional being
`Σ mark_price × qty` with zero contribution from legs whose mark cannot be
fetched or is not positive. -/
theorem c7_execution_mode_routing (marks : Marks) (legs : List TradeLeg) :
    calculate_notional marks legs = notionalSpec marks legs ∧
    rfq_notional_threshold = 50000 ∧
    smart_notional_threshold = 10000 ∧
    (legs.length = 1 →
      determine_execution_mode rfq_notional_threshold
        smart_notional_threshold marks legs = ExecMode.limit) ∧
    (legs.length ≠ 1 →
      (rfq_notional_threshold ≤ calculate_notional marks legs →
        determine_execution_mode rfq_notional_threshold
          smart_notional_threshold marks legs = ExecMode.rfq) ∧
      (calculate_notional marks legs < rfq_notional_threshold →
       smart_notional_threshold ≤ calculate_notional marks legs →
        determine_execution_mode rfq_notional_threshold
          smart_notional_threshold marks legs = ExecMode.smart) ∧
      (calculate_notional marks legs < smart_notional_threshold →
        determine_execution_mode rfq_notional_threshold
          smart_notional_threshold marks legs = ExecMode.limit)) := by
  have hnot : calculate_notional marks legs = notionalSpec marks legs := by
    simpa using notionalAux_eq marks legs 0
  refine ⟨hnot, rfl, rfl, ?_, ?_⟩
  · intro hlen
    simp [determine_execution_mode, hlen]
  · intro hlen
    refine ⟨?_, ?_, ?_⟩
    · intro hge
      simp only [determine_execution_mode, if_neg hlen]
      rw [if_pos (by simpa [calculate_notional] using hge)]
    · intro hlt hge
      simp only [determine_execution_mode, if_neg hlen]
      rw [if_neg (by simpa [calculate_notional] using not_le.mpr hlt),
        if_pos (by simpa [calculate_notional] using hge)]
    · intro hlt
      have h1 : calculate_notional marks legs < rfq_notional_threshold :=
        lt_of_lt_of_le hlt (by norm_num [rfq_notional_threshold,
          smart_notional_threshold])
      simp only [determine_execution_mode, if_neg hlen]
      rw [if_neg (by simpa [calculate_notional] using not_le.mpr h1),
        if_neg (by simpa [calculate_notional] using not_le.mpr hlt)]

/-- Witness for the C7 theorem at a concrete input: two legs at mark 30000
and qty 1 give notional 60000 ≥ 50000, routing to rfq. -/
theorem c7_execution_mode_routing_witness :
    determine_execution_mode rfq_notional_threshold smart_notional_threshold
      (fun _ => some 30000)
      [⟨"A", 1, Side.buy, 0⟩, ⟨"B", 1, Side.buy, 0⟩] = ExecMode.rfq :=
  ((c7_execution_mode_routing (fun _ => some 30000)
      [⟨"A", 1, Side.buy, 0⟩, ⟨"B", 1, Side.buy, 0⟩]).2.2.2.2
    (by norm_num)).1
    (by norm_num [calculate_notional, notionalAux, rfq_notional_threshold])

/-- C8: the claim says a poll iteration whose positions or account-summary
fetch fails leaves the stored latest snapshot unchanged and invokes no
callback with a snapshot built from the failed fetch. Counterexample: the
fetch failures are swallowed inside `AccountManager` (empty list / `None`),
so the iteration builds a default snapshot, overwrites the previous latest
with it, and delivers it to callbacks. -/
theorem c8_failed_fetch_counterexample :
    pollIteration
        (some (snapshot ⟨some [⟨"S", 1, 2⟩], some ⟨5, 4, 3, 2, 1⟩⟩))
        ⟨none, none⟩
      = (some (snapshot ⟨none, none⟩), some (snapshot ⟨none, none⟩)) ∧
    snapshot ⟨none, none⟩
      ≠ snapshot ⟨some [⟨"S", 1, 2⟩], some ⟨5, 4, 3, 2, 1⟩⟩ ∧
    (snapshot (⟨none, none⟩ : FetchEnv)).positions = [] ∧
    (snapshot (⟨none, none⟩ : FetchEnv)).equity = 0 := by
  refine ⟨rfl, ?_, rfl, rfl⟩
  intro h
  have hpos := congrArg AccountSnap.positions h
  simp [snapshot, get_positions] at hpos

/-- C8 (amended): fetch failures are swallowed by `AccountManager`
(positions failure yields an empty list, account failure yields zero
fields); the poll iteration still builds a snapshot from those defaults,
installs it as the latest, and the callbacks receive exactly it; the worker
continues either way. -/
theorem c8_poll_publishes_default_snapshot (latest : Option AccountSnap)
    (e : FetchEnv) :
    pollIteration latest e = (some (snapshot e), some (snapshot e)) ∧
    (e.positionsFetch = none → (snapshot e).positions = []) ∧
    (e.acctFetch = none →
      (snapshot e).equity = 0 ∧ (snapshot e).initialMargin = 0 ∧
      (snapshot e).marginUtilization = 0) := by
  refine ⟨rfl, ?_, ?_⟩
  · intro h
    simp [snapshot, get_positions, h]
  · intro h
    simp [snapshot, get_account_info, h]

/-- Witness for the amended C8 theorem at a concrete input. -/
theorem c8_poll_publishes_default_snapshot_witness :
    (snapshot (⟨none, none⟩ : FetchEnv)).positions = [] ∧
    (snapshot (⟨none, none⟩ : FetchEnv)).equity = 0 :=
  ⟨(c8_poll_publishes_default_snapshot none ⟨none, none⟩).2.1 rfl,
   ((c8_poll_publishes_default_snapshot none ⟨none, none⟩).2.2 rfl).1⟩

theorem chunksExecuted_stops (minQty : Rat) (legs : List SmartLeg)
    (start : String → Rat) (env : SmartEnv) (n k : Nat)
    (h : allLegsDone minQty legs start env k = true) :
    chunksExecuted minQty legs start env n k = k := by
  cases n with
  | zero => rfl
  | succ m => simp [chunksExecuted, h]

/-- C10: a chunk leg counts as filled at 99% of its chunk target (the 1%
tolerance `filled_qty ≥ total_qty − total_qty/100`), and the smart
execution stops before a chunk as soon as every leg's remaining target is
at most `min_order_qty`, reporting success with the measured fills — so the
sub-minimum residual quantities stay unexecuted. -/
theorem c10_smart_tolerance_and_early_stop (n k : Nat) (minQty f t : Rat)
    (legs : List SmartLeg) (start : String → Rat) (env : SmartEnv) :
    (legChunkIsFilled f t = true ↔ t - f ≤ t * (1 / 100)) ∧
    (allLegsDone minQty legs start env k = true ↔
      ∀ leg ∈ legs,
        remainingTarget leg.qty (filledDelta (env.posAt k) start leg.symbol)
          ≤ minQty) ∧
    (allLegsDone minQty legs start env 0 = true →
      (executeSmartMultiLeg n minQty legs start env).chunksCompleted = 0) ∧
    (executeSmartMultiLeg n minQty legs start env).success = true ∧
    (∀ s, (executeSmartMultiLeg n minQty legs start env).totalFilledQty s
      = |env.posFinal s - start s|) := by
  refine ⟨?_, ?_, ?_, rfl, fun s => rfl⟩
  · simp only [legChunkIsFilled, decide_eq_true_eq]
    constructor <;> intro h <;> linarith
  · simp only [allLegsDone, List.all_eq_true, decide_eq_true_eq]
  · intro h
    exact chunksExecuted_stops minQty legs start env n 0 h

/-- Witness for the C10 theorem at a concrete input: target 1, position
delta 0.995, `min_order_qty` 0.01 — the residual 0.005 is below the
minimum, so the execution stops before the first chunk and reports
success. -/
theorem c10_smart_tolerance_and_early_stop_witness :
    (executeSmartMultiLeg 5 (1 / 100) [⟨"A", 1⟩] (fun _ => 0)
        ⟨fun _ _ => 995 / 1000, fun _ => 995 / 1000⟩).chunksCompleted = 0 ∧
    (executeSmartMultiLeg 5 (1 / 100) [⟨"A", 1⟩] (fun _ => 0)
        ⟨fun _ _ => 995 / 1000, fun _ => 995 / 1000⟩).success = true :=
  ⟨(c10_smart_tolerance_and_early_stop 5 0 (1 / 100) 0 0 [⟨"A", 1⟩]
      (fun _ => 0) ⟨fun _ _ => 995 / 1000, fun _ => 995 / 1000⟩).2.2.1
    (by norm_num [allLegsDone, remainingTarget, filledDelta, List.all,
      abs_of_nonneg]),
   (c10_smart_tolerance_and_early_stop 5 0 (1 / 100) 0 0 [⟨"A", 1⟩]
      (fun _ => 0) ⟨fun _ _ => 995 / 1000, fun _ => 995 / 1000⟩).2.2.2.1⟩

/-- C9: each `LimitFillManager.check` returns exactly one of the four
outcomes: `filled` iff every (freshly polled) leg has `filled_qty ≥ qty`;
otherwise, once the fill timeout has elapsed, `failed` iff some unfilled
leg has reached the max requote rounds and `requoted` otherwise — the
requote resetting the round stamp and, for each unfilled leg whose order id
and oracles are available, cancelling its order, placing a new order for
`remaining_qty` at the fresh price, replacing the order id and incrementing
the requote counter; before the timeout the outcome is `pending`. -/
theorem c9_limit_fill_check (params : ExecutionParams) (env : VenueEnv)
    (elapsed : Rat) (legs : List LegFillState) :
    ((fillManagerCheck params env elapsed legs).result = CheckResult.filled ↔
      ∀ l ∈ legs.map (pollLeg env), l.isFilled = true) ∧
    ((∃ l ∈ legs.map (pollLeg env), l.isFilled = false) →
      params.fillTimeoutSeconds < elapsed →
      ((fillManagerCheck params env elapsed legs).result = CheckResult.failed
          ↔ ∃ l ∈ legs.map (pollLeg env), l.isFilled = false ∧
              params.maxRequoteRounds ≤ l.requoteCount) ∧
      ((fillManagerCheck params env elapsed legs).result = CheckResult.requoted
          ↔ ∀ l ∈ legs.map (pollLeg env), l.isFilled = false →
              l.requoteCount < params.maxRequoteRounds)) ∧
    ((∃ l ∈ legs.map (pollLeg env), l.isFilled = false) →
      elapsed ≤ params.fillTimeoutSeconds →
      (fillManagerCheck params env elapsed legs).result
        = CheckResult.pending) ∧
    ((fillManagerCheck params env elapsed legs).result = CheckResult.requoted →
      (fillManagerCheck params env elapsed legs).roundReset = true ∧
      (fillManagerCheck params env elapsed legs).legs
        = (legs.map (pollLeg env)).map (fun l => (requoteLeg env l).1) ∧
      (fillManagerCheck params env elapsed legs).placed
        = ((legs.map (pollLeg env)).map
            (fun l => (requoteLeg env l).2)).flatten) ∧
    (∀ (l : LegFillState) (oid nid : String) (p : Rat),
      l.isFilled = false → l.orderId = some oid →
      env.price l.symbol l.side = some p → env.place l.symbol = some nid →
      (requoteLeg env l).1.orderId = some nid ∧
      (requoteLeg env l).1.requoteCount = l.requoteCount + 1 ∧
      (requoteLeg env l).2
        = [{ symbol := l.symbol, qty := l.remainingQty, side := l.side,
             price := p }]) := by
  have hpoint : ∀ (l : LegFillState) (oid nid : String) (p : Rat),
      l.isFilled = false → l.orderId = some oid →
      env.price l.symbol l.side = some p → env.place l.symbol = some nid →
      (requoteLeg env l).1.orderId = some nid ∧
      (requoteLeg env l).1.requoteCount = l.requoteCount + 1 ∧
      (requoteLeg env l).2
        = [{ symbol := l.symbol, qty := l.remainingQty, side := l.side,
             price := p }] := by
    intro l oid nid p hfill hoid hprice hplace
    simp [requoteLeg, hfill, hoid, hprice, hplace]
  by_cases hall : (legs.map (pollLeg env)).all LegFillState.isFilled = true
  · have hres :
        (fillManagerCheck params env elapsed legs).result
          = CheckResult.filled := by
      simp [fillManagerCheck, hall]
    have hallmem := List.all_eq_true.mp hall
    refine ⟨⟨fun _ => hallmem, fun _ => hres⟩, ?_, ?_, ?_, hpoint⟩
    · rintro ⟨l, hl, hf⟩
      rw [hallmem l hl] at hf
      cases hf
    · rintro ⟨l, hl, hf⟩
      rw [hallmem l hl] at hf
      cases hf
    · intro hreq
      rw [hres] at hreq
      cases hreq
  · have hnall : ∀ r : CheckResult,
        (fillManagerCheck params env elapsed legs).result = r ↔
          (if params.fillTimeoutSeconds < elapsed then
            (if ((legs.map (pollLeg env)).filter
                  (fun l => !l.isFilled)).any
                  (fun l => params.maxRequoteRounds ≤ l.requoteCount) then
              CheckResult.failed
            else CheckResult.requoted)
          else CheckResult.pending) = r := by
      intro r
      by_cases ht : params.fillTimeoutSeconds < elapsed
      · by_cases hmax : ((legs.map (pollLeg env)).filter
            (fun l => !l.isFilled)).any
            (fun l => params.maxRequoteRounds ≤ l.requoteCount) = true
        · simp [fillManagerCheck, hall, ht, hmax]
        · simp [fillManagerCheck, hall, ht, hmax]
      · simp [fillManagerCheck, hall, ht]
    have hfilled_iff :
        ((fillManagerCheck params env elapsed legs).result
            = CheckResult.filled ↔
          ∀ l ∈ legs.map (pollLeg env), l.isFilled = true) := by
      constructor
      · intro hres
        rw [hnall] at hres
        by_cases ht : params.fillTimeoutSeconds < elapsed
        · rw [if_pos ht] at hres
          by_cases hmax : ((legs.map (pollLeg env)).filter
              (fun l => !l.isFilled)).any
              (fun l => params.maxRequoteRounds ≤ l.requoteCount) = true
          · rw [if_pos hmax] at hres; cases hres
          · rw [if_neg hmax] at hres; cases hres
        · rw [if_neg ht] at hres; cases hres
      · intro hmem
        exact absurd (List.all_eq_true.mpr hmem) hall
    refine ⟨hfilled_iff, ?_, ?_, ?_, hpoint⟩
    · intro _ ht
      constructor
      · constructor
        · intro hres
          rw [hnall, if_pos ht] at hres
          by_cases hmax : ((legs.map (pollLeg env)).filter
              (fun l => !l.isFilled)).any
              (fun l => params.maxRequoteRounds ≤ l.requoteCount) = true
          · rcases List.any_eq_true.mp hmax with ⟨l, hl, hcnt⟩
            rcases List.mem_filter.mp hl with ⟨hmem, hunf⟩
            refine ⟨l, hmem, ?_, ?_⟩
            · simpa using hunf
            · simpa using hcnt
          · rw [if_neg hmax] at hres; cases hres
        · rintro ⟨l, hl, hunf, hcnt⟩
          rw [hnall, if_pos ht]
          rw [if_pos]
          exact List.any_eq_true.mpr
            ⟨l, List.mem_filter.mpr ⟨hl, by simp [hunf]⟩, by simpa using hcnt⟩
      · constructor
        · intro hres
          rw [hnall, if_pos ht] at hres
          by_cases hmax : ((legs.map (pollLeg env)).filter
              (fun l => !l.isFilled)).any
              (fun l => params.maxRequoteRounds ≤ l.requoteCount) = true
          · rw [if_pos hmax] at hres; cases hres
          · intro l hl hunf
            by_contra hge
            refine absurd ?_ hmax
            exact List.any_eq_true.mpr
              ⟨l, List.mem_filter.mpr ⟨hl, by simp [hunf]⟩,
                by simpa using Nat.le_of_not_lt hge⟩
        · intro hlt
          rw [hnall, if_pos ht]
          rw [if_neg]
          intro hmax
          rcases List.any_eq_true.mp hmax with ⟨l, hl, hcnt⟩
          rcases List.mem_filter.mp hl with ⟨hmem, hunf⟩
          have hc : params.maxRequoteRounds ≤ l.requoteCount := by
            simpa using hcnt
          have hu : l.isFilled = false := by simpa using hunf
          exact absurd hc (Nat.not_le_of_lt (hlt l hmem hu))
    · intro _ hle
      rw [hnall, if_neg (not_lt.mpr hle)]
    · intro hreq
      have hres := hreq
      rw [hnall] at hres
      by_cases ht : params.fillTimeoutSeconds < elapsed
      · rw [if_pos ht] at hres
        by_cases hmax : ((legs.map (pollLeg env)).filter
            (fun l => !l.isFilled)).any
            (fun l => params.maxRequoteRounds ≤ l.requoteCount) = true
        · rw [if_pos hmax] at hres; cases hres
        · refine ⟨?_, ?_, ?_⟩ <;>
            (simp [fillManagerCheck, hall, ht, hmax]; try rfl)
      · rw [if_neg ht] at hres; cases hres

/-- Witness for the C9 theorem at a concrete input: one unfilled leg below
its requote limit, past the timeout, so the outcome is `requoted`. -/
theorem c9_limit_fill_check_witness :
    (fillManagerCheck ⟨30, 2, 10⟩
        ⟨fun _ => none, fun _ _ => some 5, fun _ => some "o2"⟩ 31
        [⟨"S", 1, Side.buy, some "o1", 0, none, 0⟩]).result
      = CheckResult.requoted := by
  have h := (c9_limit_fill_check ⟨30, 2, 10⟩
    ⟨fun _ => none, fun _ _ => some 5, fun _ => some "o2"⟩ 31
    [⟨"S", 1, Side.buy, some "o1", 0, none, 0⟩]).2.1
    ⟨⟨"S", 1, Side.buy, some "o1", 0, none, 0⟩,
      by simp [pollLeg, LegFillState.isFilled],
      by norm_num [pollLeg, LegFillState.isFilled]⟩
    (by norm_num)
  exact h.2.mpr (by
    intro l hl hunf
    simp only [List.map_cons, List.map_nil, List.mem_singleton] at hl
    subst hl
    norm_num [pollLeg, LegFillState.isFilled])

end CoincallTrader
